import Mathlib

/-!
Verification development for the trip-planning orchestrator (`app.py`).

The Python source is shallowly embedded: floats become real numbers (`ℝ`)
where trigonometry is involved and exact rationals/integers elsewhere,
provider HTTP responses become explicit `Option`-wrapped data (with `none`
standing for a failed request or a raised exception), and Python truthiness
tests are modelled explicitly where they matter (`0.0` and empty strings are
falsy).
-/

open Real List

/-- `math.radians(x)`: degree-to-radian conversion. -/
noncomputable def radians (x : ℝ) : ℝ := x * (Real.pi / 180)

/-- `haversine(lat1, lon1, lat2, lon2)` from `app.py`: great-circle distance
in kilometres on a sphere of radius 6371 km. -/
noncomputable def haversine (lat1 lon1 lat2 lon2 : ℝ) : ℝ :=
  let R : ℝ := 6371
  let phi1 := radians lat1
  let phi2 := radians lat2
  let dphi := radians (lat2 - lat1)
  let dlambda := radians (lon2 - lon1)
  let a := Real.sin (dphi / 2) ^ 2 +
    Real.cos phi1 * Real.cos phi2 * Real.sin (dlambda / 2) ^ 2
  2 * R * Real.arcsin (Real.sqrt a)

/-- One candidate of the Nominatim JSON array. `lat`/`lon` are `none` when
the field is missing or `float()` would raise on it; `display_name` is
`none` when the key is absent (`item.get("display_name", place)` then falls
back to the query). -/
structure Candidate where
  lat : Option ℝ
  lon : Option ℝ
  display_name : Option String

/-- The successful result of `geocode_place` (the `"raw"` passthrough field
is dropped: nothing downstream reads it). -/
structure GeocodeResult where
  lat : ℝ
  lon : ℝ
  display_name : String

/-- `geocode_place` from `app.py`. The HTTP layer is abstracted into `resp`:
`none` models a failed request (timeout, network error, non-2xx status,
malformed JSON — all end in the `except` returning `None`), `some data` the
decoded candidate array. An unparseable `lat` or `lon` on the top candidate
also raises inside the `try` and yields `None`. -/
def geocode_place (place : String) (resp : Option (List Candidate)) :
    Option GeocodeResult :=
  match resp with
  | none => none
  | some data =>
    match data with
    | [] => none
    | item :: _ =>
      match item.lat, item.lon with
      | some la, some lo =>
          some { lat := la, lon := lo,
                 display_name := item.display_name.getD place }
      | _, _ => none

/-- Numeric value of a decimal digit character, `none` otherwise. -/
def digitVal (c : Char) : Option ℕ :=
  if c.isDigit then some (c.toNat - 48) else none

/-- Two-digit decimal number from two characters. -/
def parseTwo (c1 c2 : Char) : Option ℕ := do
  let a ← digitVal c1
  let b ← digitVal c2
  pure (10 * a + b)

/-- Gregorian leap-year test, as in Python's `datetime`. -/
def isLeapYear (y : ℕ) : Bool :=
  y % 4 == 0 && (y % 100 != 0 || y % 400 == 0)

/-- Length of month `m` (1-based) of year `y`. -/
def daysInMonth (y m : ℕ) : ℕ :=
  if m = 2 then (if isLeapYear y then 29 else 28)
  else if m = 4 ∨ m = 6 ∨ m = 9 ∨ m = 11 then 30
  else 31

/-- Days in the months of year `y` strictly before month `m`. -/
def daysBeforeMonth (y m : ℕ) : ℕ :=
  (List.range (m - 1)).foldl (fun acc i => acc + daysInMonth y (i + 1)) 0

/-- Days strictly before January 1 of year `y` (proleptic Gregorian). -/
def daysBeforeYear (y : ℕ) : ℕ :=
  365 * (y - 1) + (y - 1) / 4 - (y - 1) / 100 + (y - 1) / 400

/-- Proleptic Gregorian ordinal of a calendar date, as in `datetime`. -/
def toOrdinal (y m d : ℕ) : ℕ :=
  daysBeforeYear y + daysBeforeMonth y m + d

/-- Validated `YYYY-MM-DD` digits to an ordinal day count. -/
def parseDate (y1 y2 y3 y4 m1 m2 d1 d2 : Char) : Option ℕ := do
  let hi ← parseTwo y1 y2
  let lo ← parseTwo y3 y4
  let m ← parseTwo m1 m2
  let d ← parseTwo d1 d2
  let y := hi * 100 + lo
  if 1 ≤ y ∧ 1 ≤ m ∧ m ≤ 12 ∧ 1 ≤ d ∧ d ≤ daysInMonth y m then
    some (toOrdinal y m d) else none

/-- `datetime.fromisoformat` restricted to the timezone-naive shapes the
weather provider emits (`YYYY-MM-DD`, `YYYY-MM-DDTHH:MM`,
`YYYY-MM-DDTHH:MM:SS`), mapped to a second count on a proleptic Gregorian
time line; `none` models the `ValueError` raised on any other input. -/
def parseTime (s : String) : Option ℕ :=
  match s.toList with
  | [y1, y2, y3, y4, '-', m1, m2, '-', d1, d2] => do
      let o ← parseDate y1 y2 y3 y4 m1 m2 d1 d2
      pure (o * 86400)
  | [y1, y2, y3, y4, '-', m1, m2, '-', d1, d2, 'T', h1, h2, ':', n1, n2] => do
      let o ← parseDate y1 y2 y3 y4 m1 m2 d1 d2
      let h ← parseTwo h1 h2
      let mi ← parseTwo n1 n2
      if h ≤ 23 ∧ mi ≤ 59 then pure (o * 86400 + h * 3600 + mi * 60) else none
  | [y1, y2, y3, y4, '-', m1, m2, '-', d1, d2, 'T',
     h1, h2, ':', n1, n2, ':', s1, s2] => do
      let o ← parseDate y1 y2 y3 y4 m1 m2 d1 d2
      let h ← parseTwo h1 h2
      let mi ← parseTwo n1 n2
      let sec ← parseTwo s1 s2
      if h ≤ 23 ∧ mi ≤ 59 ∧ sec ≤ 59 then
        pure (o * 86400 + h * 3600 + mi * 60 + sec) else none
  | _ => none

/-- `[to_ts(t) for t in times]`: parses every timestamp, propagating the
first `ValueError` (modelled as `none`). -/
def parseAll : List String → Option (List ℕ)
  | [] => some []
  | t :: ts =>
    match parseTime t, parseAll ts with
    | some v, some vs => some (v :: vs)
    | _, _ => none

/-- The `precip_prob` computation inside `get_weather` (the inner `try`
block): `none` is Python `None`, produced when the `if times and probs:`
guard fails, when `curtime` is `None` (`to_ts(None)` raises), when a
timestamp fails to parse, or when a probability index is out of range
(`IndexError`) — the bare `except` swallows every exception. -/
def compute_precip (times : List String) (probs : List ℤ) :
    Option String → Option ℤ
  | none => none
  | some ct =>
    if times = [] ∨ probs = [] then none
    else if ct ∈ times then probs[times.indexOf ct]?
    else
      match parseAll times, parseTime ct with
      | some times_ts, some cur_ts =>
        let diffs := times_ts.map fun (t : ℕ) => ((cur_ts : ℤ) - (t : ℤ)).natAbs
        match diffs with
        | [] => none
        | d0 :: drest => probs[diffs.indexOf (drest.foldl min d0)]?
      | _, _ => none

/-- The `current_weather` block of an Open-Meteo response. -/
structure CurrentWeather where
  temperature : Option ℚ
  windspeed : Option ℚ
  time : Option String

/-- A decoded Open-Meteo response: optional current-conditions block plus
the parallel hourly arrays (missing `hourly` keys decode to `[]`, which the
truthiness guard treats identically). -/
structure WeatherResp where
  current_weather : Option CurrentWeather
  hourly_time : List String
  hourly_precip : List ℤ

/-- The dictionary `get_weather` returns on success (the `"raw"`
passthrough field is dropped: nothing downstream reads it). -/
structure WeatherOut where
  temperature : Option ℚ
  windspeed : Option ℚ
  time : Option String
  precip_prob : Option ℤ

/-- `get_weather` from `app.py`. The HTTP layer is abstracted into `resp`:
`none` models a failed request (the outer `except` returning `None`). -/
def get_weather (resp : Option WeatherResp) : Option WeatherOut :=
  match resp with
  | none => none
  | some data =>
    match data.current_weather with
    | none => none
    | some curr =>
      some { temperature := curr.temperature, windspeed := curr.windspeed,
             time := curr.time,
             precip_prob :=
               compute_precip data.hourly_time data.hourly_precip curr.time }

/-- Absolute difference (in seconds) between the parsed current timestamp
and the `j`-th parsed hourly timestamp; spec-side shorthand used to state
the alignment property. -/
def dabs (cts : ℕ) (tss : List ℕ) (j : ℕ) : ℕ :=
  ((cts : ℤ) - (tss.getD j 0 : ℤ)).natAbs

/-- One element of the Overpass `elements` array. For nodes the position is
in `lat`/`lon` (either may be missing); for ways/relations it is in the
`center` sub-object, flattened here to `center_lat`/`center_lon` (a missing
or empty `center` dict collapses to both `none`, matching
`el.get("center") or {}`). Tags are an association list; Python dict keys
are unique and lookups take the first binding. -/
structure Element where
  etype : String
  tags : List (String × String)
  lat : Option ℝ
  lon : Option ℝ
  center_lat : Option ℝ
  center_lon : Option ℝ

/-- `tags.get(k)`: value bound to key `k`, if any. -/
def tagGet (tags : List (String × String)) (k : String) : Option String :=
  (tags.find? (fun p => p.1 == k)).map (fun p => p.2)

/-- One entry of the list `find_places` builds. -/
structure Place where
  name : String
  tags : List (String × String)
  ptype : String
  lat : Option ℝ
  lon : Option ℝ
  distance_km : Option ℝ

/-- The `for k in ("tourism", "historic", "leisure", "amenity")` loop:
first key whose value is truthy (present and non-empty), rendered `k=v`. -/
def primaryTag (tags : List (String × String)) : List String → Option String
  | [] => none
  | k :: ks =>
    match tagGet tags k with
    | some v => if v = "" then primaryTag tags ks else some (k ++ "=" ++ v)
    | none => primaryTag tags ks

/-- Position extraction: nodes use `lat`/`lon` as-is (possibly missing);
other element types require both `center` coordinates or the element is
skipped (`if plat is None or plon is None: continue`). -/
def elemCoords (el : Element) : Option (Option ℝ × Option ℝ) :=
  if el.etype = "node" then some (el.lat, el.lon)
  else
    match el.center_lat, el.center_lon with
    | some plat, some plon => some (some plat, some plon)
    | _, _ => none

/-- `haversine(lat, lon, plat, plon) if plat and plon else None`: Python
float truthiness makes a coordinate equal to 0.0 falsy, so the distance is
computed only when both coordinates are present and nonzero. -/
noncomputable def distOpt (lat lon : ℝ) : Option ℝ × Option ℝ → Option ℝ
  | (some plat, some plon) =>
    if plat = 0 ∨ plon = 0 then none else some (haversine lat lon plat plon)
  | (some _, none) => none
  | (none, _) => none

/-- The element loop of `find_places`, carrying the `seen_names` set. A
falsy (missing or empty) name skips the element; the name joins
`seen_names` before the way-centre check, so a way without a centre still
consumes its name for deduplication purposes. -/
noncomputable def buildPlaces (lat lon : ℝ) : List Element → List String → List Place
  | [], _ => []
  | el :: rest, seen =>
    match tagGet el.tags "name" with
    | none => buildPlaces lat lon rest seen
    | some name =>
      if name = "" then buildPlaces lat lon rest seen
      else if name ∈ seen then buildPlaces lat lon rest seen
      else
        match elemCoords el with
        | none => buildPlaces lat lon rest (name :: seen)
        | some (plat, plon) =>
          { name := name, tags := el.tags,
            ptype := (primaryTag el.tags
              ["tourism", "historic", "leisure", "amenity"]).getD "other",
            lat := plat, lon := plon,
            distance_km := distOpt lat lon (plat, plon) } ::
          buildPlaces lat lon rest (name :: seen)

noncomputable instance : DecidableEq Place := Classical.decEq Place

/-- The comparison `sorted(..., key=lambda x: x["distance_km"])` uses; on
the filtered list every `distance_km` is present, so the default is never
read. -/
noncomputable def distLe (a b : Place) : Bool :=
  decide (a.distance_km.getD 0 ≤ b.distance_km.getD 0)

/-- `find_places` from `app.py`. The Overpass HTTP exchange is abstracted
into `resp`: `none` is a failed request or undecodable body (the `except`
returns `[]`), `some elems` the decoded `elements` array. `radius_m` only
shapes the provider query, not the post-processing. -/
noncomputable def find_places (lat lon : ℝ) (radius_m : ℕ)
    (resp : Option (List Element)) (max_places : ℕ) : List Place :=
  match resp with
  | none => []
  | some elems =>
    let places := buildPlaces lat lon elems []
    let places_sorted :=
      (places.filter (fun p => p.distance_km.isSome)).mergeSort distLe
    let extended :=
      if places_sorted.length < max_places then
        places_sorted ++ places.filter (fun p => !(decide (p ∈ places_sorted)))
      else places_sorted
    extended.take max_places

/-- The `place` sub-dictionary of a successful plan. -/
structure PlaceInfo where
  query : String
  display_name : String
  lat : ℝ
  lon : ℝ

/-- The dictionary `plan_for_place` returns: `ok: False` with an error
message, or `ok: True` with place, weather and places payloads. -/
inductive PlanResult where
  | failure (error : String)
  | success (place : PlaceInfo) (weather : Option WeatherOut)
      (places : List Place)

/-- The `"ok"` field. -/
def PlanResult.ok : PlanResult → Bool
  | .failure _ => false
  | .success _ _ _ => true

/-- `plan_for_place` from `app.py`: geocode, then fan out to the weather
and POI children. Each provider's HTTP exchange is abstracted into the
response argument consumed by the corresponding child function. -/
noncomputable def plan_for_place (place_query : String)
    (gresp : Option (List Candidate)) (wresp : Option WeatherResp)
    (presp : Option (List Element)) : PlanResult :=
  match geocode_place place_query gresp with
  | none =>
    .failure ("I don't know this place exists: '" ++ place_query ++
      "'. Please check spelling or try a different place.")
  | some geocode =>
    .success { query := place_query, display_name := geocode.display_name,
               lat := geocode.lat, lon := geocode.lon }
      (get_weather wresp)
      (find_places geocode.lat geocode.lon 20000 presp 5)

lemma radians_zero : radians 0 = 0 := by simp [radians]

lemma sin_sq_radians_sub_symm (x y : ℝ) :
    Real.sin (radians (x - y) / 2) ^ 2 = Real.sin (radians (y - x) / 2) ^ 2 := by
  have h : radians (x - y) / 2 = -(radians (y - x) / 2) := by
    unfold radians; ring
  rw [h, Real.sin_neg]
  ring

/-- C7: the distance utility is symmetric, and the distance from any
coordinate pair to itself is zero. -/
theorem haversine_symm_self (lat1 lon1 lat2 lon2 : ℝ) :
    haversine lat1 lon1 lat2 lon2 = haversine lat2 lon2 lat1 lon1 ∧
    haversine lat1 lon1 lat1 lon1 = 0 := by
  constructor
  · unfold haversine
    dsimp only
    rw [sin_sq_radians_sub_symm lat2 lat1, sin_sq_radians_sub_symm lon2 lon1]
    ring_nf
  · unfold haversine
    dsimp only
    simp [radians_zero, Real.sqrt_zero, Real.arcsin_zero]

lemma radians_ninety_cos : Real.cos (radians 90) = 0 := by
  have h : radians 90 = Real.pi / 2 := by unfold radians; ring
  rw [h, Real.cos_pi_div_two]

/-- C8 counterexample: both poles-with-different-longitude coordinate pairs
lie inside the claimed latitude/longitude ranges, are distinct, yet have
haversine distance zero, so zero distance does not occur only at equal
pairs. -/
theorem haversine_zero_distinct_pair :
    ((-90:ℝ) ≤ 90 ∧ (90:ℝ) ≤ 90 ∧ (-180:ℝ) ≤ 0 ∧ (0:ℝ) ≤ 180 ∧
      (-180:ℝ) ≤ 10 ∧ (10:ℝ) ≤ 180) ∧
    haversine 90 0 90 10 = 0 ∧ ¬((90:ℝ) = 90 ∧ (0:ℝ) = 10) := by
  refine ⟨by norm_num, ?_, by norm_num⟩
  unfold haversine
  dsimp only
  rw [radians_ninety_cos]
  norm_num [radians_zero, Real.sqrt_zero, Real.arcsin_zero]

lemma radians_cos_pos {x : ℝ} (h1 : -90 < x) (h2 : x < 90) :
    0 < Real.cos (radians x) := by
  have hpi := Real.pi_pos
  apply Real.cos_pos_of_mem_Ioo
  constructor
  · show -(Real.pi / 2) < x * (Real.pi / 180)
    nlinarith
  · show x * (Real.pi / 180) < Real.pi / 2
    nlinarith

lemma sin_radians_half_eq_zero_iff {d : ℝ} (h1 : -360 < d) (h2 : d < 360) :
    Real.sin (radians d / 2) = 0 ↔ d = 0 := by
  have hpi := Real.pi_pos
  rw [Real.sin_eq_zero_iff_of_lt_of_lt]
  · constructor
    · intro h
      have hne : Real.pi / 360 ≠ 0 := by positivity
      have : d * (Real.pi / 360) = 0 := by
        have hh : radians d / 2 = d * (Real.pi / 360) := by unfold radians; ring
        rw [← hh]; exact h
      rcases mul_eq_zero.mp this with h' | h'
      · exact h'
      · exact absurd h' hne
    · intro h
      rw [h, radians_zero]
      simp
  · show -Real.pi < d * (Real.pi / 180) / 2
    nlinarith
  · show d * (Real.pi / 180) / 2 < Real.pi
    nlinarith

/-- C8 (amended): for latitudes strictly between -90 and 90 (poles excluded)
and longitudes in the half-open range (-180, 180] (so that the two
representations of the antimeridian cannot both occur), the haversine
distance is zero exactly when the two coordinate pairs are equal. -/
theorem haversine_eq_zero_iff (lat1 lon1 lat2 lon2 : ℝ)
    (ha1 : -90 < lat1) (ha2 : lat1 < 90) (hb1 : -90 < lat2) (hb2 : lat2 < 90)
    (hc1 : -180 < lon1) (hc2 : lon1 ≤ 180) (hd1 : -180 < lon2) (hd2 : lon2 ≤ 180) :
    haversine lat1 lon1 lat2 lon2 = 0 ↔ (lat1 = lat2 ∧ lon1 = lon2) := by
  unfold haversine
  dsimp only
  have hcos1 := radians_cos_pos ha1 ha2
  have hcos2 := radians_cos_pos hb1 hb2
  have hs1 : (0:ℝ) ≤ Real.sin (radians (lat2 - lat1) / 2) ^ 2 := sq_nonneg _
  have hs2 : (0:ℝ) ≤ Real.sin (radians (lon2 - lon1) / 2) ^ 2 := sq_nonneg _
  constructor
  · intro h
    have h2 : Real.arcsin (Real.sqrt (Real.sin (radians (lat2 - lat1) / 2) ^ 2 +
        Real.cos (radians lat1) * Real.cos (radians lat2) *
          Real.sin (radians (lon2 - lon1) / 2) ^ 2)) = 0 := by
      rcases mul_eq_zero.mp h with h' | h'
      · norm_num at h'
      · exact h'
    rw [Real.arcsin_eq_zero_iff, Real.sqrt_eq_zero'] at h2
    have hcc : 0 < Real.cos (radians lat1) * Real.cos (radians lat2) :=
      mul_pos hcos1 hcos2
    have hz1 : Real.sin (radians (lat2 - lat1) / 2) ^ 2 = 0 := by nlinarith
    have hz2 : Real.sin (radians (lon2 - lon1) / 2) ^ 2 = 0 := by nlinarith
    have e1 : lat2 - lat1 = 0 := by
      rw [pow_eq_zero_iff (two_ne_zero)] at hz1
      exact (sin_radians_half_eq_zero_iff (by linarith) (by linarith)).mp hz1
    have e2 : lon2 - lon1 = 0 := by
      rw [pow_eq_zero_iff (two_ne_zero)] at hz2
      exact (sin_radians_half_eq_zero_iff (by linarith) (by linarith)).mp hz2
    constructor <;> linarith
  · rintro ⟨rfl, rfl⟩
    simp [radians_zero, Real.sqrt_zero, Real.arcsin_zero]

/-- Witness for the amended C8 theorem at the concrete pair (0,0), (0,0). -/
theorem haversine_eq_zero_iff_witness :
    ((-90:ℝ) < 0 ∧ (0:ℝ) < 90 ∧ (-180:ℝ) < 0 ∧ (0:ℝ) ≤ 180) ∧
    (haversine 0 0 0 0 = 0 ↔ ((0:ℝ) = 0 ∧ (0:ℝ) = 0)) :=
  ⟨by norm_num,
    haversine_eq_zero_iff 0 0 0 0 (by norm_num) (by norm_num) (by norm_num)
      (by norm_num) (by norm_num) (by norm_num) (by norm_num) (by norm_num)⟩

/-- C10: when the provider returns at least one candidate with parseable
coordinates but no display name, geocoding still succeeds and the display
name falls back to the original query string. -/
theorem geocode_place_display_name_fallback (place : String) (la lo : ℝ)
    (c : Candidate) (rest : List Candidate)
    (hla : c.lat = some la) (hlo : c.lon = some lo)
    (hdn : c.display_name = none) :
    geocode_place place (some (c :: rest)) =
      some { lat := la, lon := lo, display_name := place } := by
  cases c
  cases hla
  cases hlo
  cases hdn
  rfl

/-- Witness for C10 at a concrete candidate list. -/
theorem geocode_place_display_name_fallback_witness :
    ((Candidate.mk (some 12) (some 77) none).lat = some 12 ∧
     (Candidate.mk (some 12) (some 77) none).lon = some 77 ∧
     (Candidate.mk (some 12) (some 77) none).display_name = none) ∧
    geocode_place "Springfield" (some [Candidate.mk (some 12) (some 77) none]) =
      some { lat := 12, lon := 77, display_name := "Springfield" } :=
  ⟨⟨rfl, rfl, rfl⟩,
    geocode_place_display_name_fallback "Springfield" 12 77 _ [] rfl rfl rfl⟩

lemma foldl_min_mem (xs : List ℕ) : ∀ x : ℕ, xs.foldl min x ∈ x :: xs := by
  induction xs with
  | nil => intro x; simp
  | cons y ys ih =>
    intro x
    rw [List.foldl_cons]
    rcases List.mem_cons.mp (ih (min x y)) with h' | h'
    · rw [h']
      rcases min_choice x y with hm | hm <;> rw [hm] <;> simp
    · simp [List.mem_cons_of_mem, h']

lemma foldl_min_le (xs : List ℕ) : ∀ x y : ℕ, y ∈ x :: xs → xs.foldl min x ≤ y := by
  induction xs with
  | nil =>
    intro x y hy
    simp only [List.mem_cons, List.not_mem_nil, or_false] at hy
    simp [hy]
  | cons z zs ih =>
    intro x y hy
    rw [List.foldl_cons]
    have hbase : zs.foldl min (min x z) ≤ min x z :=
      ih (min x z) (min x z) (List.mem_cons_self _ _)
    rcases List.mem_cons.mp hy with rfl | hy'
    · exact le_trans hbase (min_le_left _ _)
    · rcases List.mem_cons.mp hy' with rfl | hy'' 
    
      · exact le_trans hbase (min_le_right _ _)
      · exact ih (min x z) y (List.mem_cons_of_mem _ hy'') 

lemma getElem_ne_of_lt_indexOf {α : Type} [BEq α] [LawfulBEq α] {l : List α}
    {a : α} {j : ℕ} (hj : j < l.indexOf a) (hjl : j < l.length) : l[j] ≠ a := by
  have h := List.not_of_lt_findIdx (p := (· == a)) (i := j) hj
  simpa using h

lemma indexOf_getElem_self {α : Type} [DecidableEq α] {l : List α} {a : α}
    (h : l.indexOf a < l.length) : l[l.indexOf a] = a := by
  have h2 := List.indexOf_get (a := a) (l := l) h
  simp only [List.get_eq_getElem] at h2
  exact h2

lemma parseAll_length : ∀ {ts : List String} {vs : List ℕ},
    parseAll ts = some vs → vs.length = ts.length := by
  intro ts
  induction ts with
  | nil =>
    intro vs h
    simp only [parseAll, Option.some.injEq] at h
    simp [← h]
  | cons t ts ih =>
    intro vs h
    unfold parseAll at h
    cases hpt : parseTime t with
    | none => rw [hpt] at h; simp at h
    | some v =>
      rw [hpt] at h
      cases hpa : parseAll ts with
      | none => rw [hpa] at h; simp at h
      | some vs' =>
        rw [hpa] at h
        simp only [Option.some.injEq] at h
        simp [← h, ih hpa]

lemma parseAll_eq_none {ts : List String} (h : ∃ t ∈ ts, parseTime t = none) :
    parseAll ts = none := by
  induction ts with
  | nil => simp at h
  | cons t ts ih =>
    obtain ⟨u, hu, hun⟩ := h
    unfold parseAll
    rcases List.mem_cons.mp hu with rfl | hu'
    · rw [hun]
    · rw [ih ⟨u, hu', hun⟩]
      cases parseTime t <;> rfl

lemma compute_precip_match (times : List String) (probs : List ℤ)
    (ct : String) (hne : times ≠ []) (hpe : probs ≠ []) (hin : ct ∈ times) :
    compute_precip times probs (some ct) = probs[times.indexOf ct]? := by
  unfold compute_precip
  dsimp only
  rw [if_neg (not_or.mpr ⟨hne, hpe⟩), if_pos hin]

lemma compute_precip_nearest (times : List String) (probs : List ℤ)
    (ct : String) (hne : times ≠ []) (hpe : probs ≠ []) (hnin : ct ∉ times)
    (tss : List ℕ) (cts : ℕ) (htss : parseAll times = some tss)
    (hct : parseTime ct = some cts) (d0 : ℕ) (drest : List ℕ)
    (hd : tss.map (fun (t : ℕ) => ((cts : ℤ) - (t : ℤ)).natAbs) = d0 :: drest) :
    compute_precip times probs (some ct) =
      probs[(d0 :: drest).indexOf (drest.foldl min d0)]? := by
  unfold compute_precip
  dsimp only
  rw [if_neg (not_or.mpr ⟨hne, hpe⟩), if_neg hnin, htss, hct]
  dsimp only
  rw [hd]

/-- C5: when the current-conditions timestamp occurs among the hourly
timestamps, the aligned precipitation probability is the one at the first
such index; otherwise it is the one at the entry whose parsed timestamp has
the smallest absolute difference from the parsed current timestamp, with
ties broken by the first occurrence in sequence order. -/
theorem compute_precip_alignment (times : List String) (probs : List ℤ)
    (ct : String) (hne : times ≠ []) (hpe : probs ≠ [])
    (hlen : times.length = probs.length) :
    (ct ∈ times →
      ∃ (i : ℕ) (hi : i < times.length),
        times[i] = ct ∧
        (∀ j (hj : j < times.length), j < i → times[j] ≠ ct) ∧
        compute_precip times probs (some ct) = some (probs.get ⟨i, hlen ▸ hi⟩)) ∧
    (ct ∉ times → ∀ (tss : List ℕ) (cts : ℕ),
      parseAll times = some tss → parseTime ct = some cts →
      ∃ (i : ℕ) (hi : i < times.length),
        compute_precip times probs (some ct) = some (probs.get ⟨i, hlen ▸ hi⟩) ∧
        ∀ j (hj : j < times.length),
          dabs cts tss i < dabs cts tss j ∨
          (dabs cts tss i = dabs cts tss j ∧ i ≤ j)) := by
  constructor
  · intro hin
    have hidx : times.indexOf ct < times.length := List.indexOf_lt_length.mpr hin
    refine ⟨times.indexOf ct, hidx, indexOf_getElem_self hidx, ?_, ?_⟩
    · intro j hj hlt
      exact getElem_ne_of_lt_indexOf hlt hj
    · rw [compute_precip_match times probs ct hne hpe hin,
        List.getElem?_eq_getElem (by omega)]
      simp [List.get_eq_getElem]
  · intro hnin tss cts htss hct
    have hlen2 : tss.length = times.length := parseAll_length htss
    have htne : tss ≠ [] := by
      intro h
      subst h
      simp only [List.length_nil] at hlen2
      exact hne (List.length_eq_zero.mp hlen2.symm)
    obtain ⟨d0, drest, hd⟩ : ∃ d0 drest,
        tss.map (fun (t : ℕ) => ((cts : ℤ) - (t : ℤ)).natAbs) = d0 :: drest := by
      cases hdm : tss.map (fun (t : ℕ) => ((cts : ℤ) - (t : ℤ)).natAbs) with
      | nil => exact absurd (List.map_eq_nil_iff.mp hdm) htne
      | cons a b => exact ⟨a, b, rfl⟩
    have hdlen : (d0 :: drest).length = times.length := by
      rw [← hd, List.length_map, hlen2]
    have hmmem : drest.foldl min d0 ∈ d0 :: drest := foldl_min_mem drest d0
    have hmle : ∀ y ∈ d0 :: drest, drest.foldl min d0 ≤ y :=
      fun y hy => foldl_min_le drest d0 y hy
    have hidx : (d0 :: drest).indexOf (drest.foldl min d0) < (d0 :: drest).length :=
      List.indexOf_lt_length.mpr hmmem
    have hdi : (d0 :: drest)[(d0 :: drest).indexOf (drest.foldl min d0)] =
        drest.foldl min d0 := indexOf_getElem_self hidx
    have hdabs : ∀ k (hk : k < (d0 :: drest).length),
        dabs cts tss k = (d0 :: drest)[k] := by
      intro k hk
      have hk2 : k < tss.length := by
        have := congrArg List.length hd
        simp only [List.length_map] at this
        omega
      have h1 : (tss.map (fun (t : ℕ) => ((cts : ℤ) - (t : ℤ)).natAbs))[k]? =
          (d0 :: drest)[k]? := by rw [hd]
      rw [List.getElem?_map, List.getElem?_eq_getElem hk2,
        List.getElem?_eq_getElem hk] at h1
      simp only [Option.map_some'] at h1
      have h2 := Option.some.inj h1
      unfold dabs
      rw [List.getD_eq_getElem?_getD, List.getElem?_eq_getElem hk2]
      simpa using h2
    refine ⟨(d0 :: drest).indexOf (drest.foldl min d0), by omega, ?_, ?_⟩
    · rw [compute_precip_nearest times probs ct hne hpe hnin tss cts htss hct
        d0 drest hd, List.getElem?_eq_getElem (by omega)]
      simp [List.get_eq_getElem]
    · intro j hj
      have hjd : j < (d0 :: drest).length := by omega
      have hjmem : (d0 :: drest)[j] ∈ d0 :: drest := List.getElem_mem hjd
      have hle := hmle _ hjmem
      rw [hdabs _ (by omega), hdabs _ hjd, hdi]
      rcases Nat.lt_or_ge j ((d0 :: drest).indexOf (drest.foldl min d0)) with hji | hij
      · left
        have hne' : (d0 :: drest)[j] ≠ drest.foldl min d0 :=
          getElem_ne_of_lt_indexOf hji hjd
        omega
      · rcases Nat.eq_or_lt_of_le hle with heq | hlt
        · right
          exact ⟨heq, hij⟩
        · left
          exact hlt

/-- Witness for C5 at the concrete series from the spec: the exact-match
current timestamp 11:00 yields 80, and the nearest-match current timestamp
10:40 (11:00 is 20 minutes away, against 40 for 10:00) also yields 80. -/
theorem compute_precip_alignment_witness :
    ((["2024-01-01T10:00", "2024-01-01T11:00"] : List String) ≠ [] ∧
     ([10, 80] : List ℤ) ≠ [] ∧
     (["2024-01-01T10:00", "2024-01-01T11:00"] : List String).length =
       ([10, 80] : List ℤ).length ∧
     "2024-01-01T11:00" ∈ ["2024-01-01T10:00", "2024-01-01T11:00"] ∧
     "2024-01-01T10:40" ∉ ["2024-01-01T10:00", "2024-01-01T11:00"] ∧
     parseAll ["2024-01-01T10:00", "2024-01-01T11:00"] =
       some [63839786400, 63839790000] ∧
     parseTime "2024-01-01T10:40" = some 63839788800) ∧
    compute_precip ["2024-01-01T10:00", "2024-01-01T11:00"] [10, 80]
      (some "2024-01-01T11:00") = some 80 ∧
    compute_precip ["2024-01-01T10:00", "2024-01-01T11:00"] [10, 80]
      (some "2024-01-01T10:40") = some 80 := by
  refine ⟨⟨by decide, by decide, by decide, by decide, by decide, by decide,
    by decide⟩, ?_, ?_⟩
  · obtain ⟨i, hi, hget, hfirst, heq⟩ :=
      (compute_precip_alignment ["2024-01-01T10:00", "2024-01-01T11:00"]
          [10, 80] "2024-01-01T11:00" (by decide) (by decide) (by decide)).1
        (by decide)
    have hi2 : i < 2 := by simpa using hi
    interval_cases i
    · simp at hget
    · simpa using heq
  · obtain ⟨i, hi, heq, hmin⟩ :=
      (compute_precip_alignment ["2024-01-01T10:00", "2024-01-01T11:00"]
          [10, 80] "2024-01-01T10:40" (by decide) (by decide) (by decide)).2
        (by decide) [63839786400, 63839790000] 63839788800 (by decide)
        (by decide)
    have hi2 : i < 2 := by simpa using hi
    interval_cases i
    · exfalso
      rcases hmin 1 (by decide) with h | ⟨h, _⟩
      · revert h; decide
      · revert h; decide
    · simpa using heq

lemma compute_precip_none_cases (times : List String) (probs : List ℤ)
    (cto : Option String)
    (h : times = [] ∨ probs = [] ∨
      ∃ ct, cto = some ct ∧ ct ∉ times ∧
        (parseTime ct = none ∨ ∃ t ∈ times, parseTime t = none)) :
    compute_precip times probs cto = none := by
  cases cto with
  | none => rfl
  | some ct =>
    unfold compute_precip
    dsimp only
    by_cases hep : times = [] ∨ probs = []
    · rw [if_pos hep]
    · rw [if_neg hep]
      rcases h with h | h | ⟨ct', hct', hnin, hfail⟩
      · exact absurd (Or.inl h) hep
      · exact absurd (Or.inr h) hep
      · obtain rfl := Option.some.inj hct'
        rw [if_neg hnin]
        rcases hfail with hf | hf
        · rw [hf]
          cases parseAll times <;> rfl
        · rw [parseAll_eq_none hf]

/-- C6: the weather lookup returns `None` exactly when the provider request
itself fails or the response lacks a current-conditions block; empty hourly
arrays or a timestamp parse failure only leave the precipitation
probability absent, with the other current-conditions fields intact. -/
theorem get_weather_failure_modes (resp : Option WeatherResp) :
    (get_weather resp = none ↔
      resp = none ∨ ∃ d, resp = some d ∧ d.current_weather = none) ∧
    (∀ d c, resp = some d → d.current_weather = some c →
      (d.hourly_time = [] ∨ d.hourly_precip = [] ∨
        ∃ ct, c.time = some ct ∧ ct ∉ d.hourly_time ∧
          (parseTime ct = none ∨ ∃ t ∈ d.hourly_time, parseTime t = none)) →
      get_weather resp =
        some { temperature := c.temperature, windspeed := c.windspeed,
               time := c.time, precip_prob := none }) := by
  constructor
  · cases resp with
    | none => simp [get_weather]
    | some d =>
      cases hcw : d.current_weather with
      | none => simp [get_weather, hcw]
      | some c => simp [get_weather, hcw]
  · intro d c hresp hcw hcond
    subst hresp
    unfold get_weather
    dsimp only
    rw [hcw]
    dsimp only
    rw [compute_precip_none_cases _ _ _ hcond]

/-- Witness for C6: a response whose current-conditions block is present
but whose hourly arrays are empty yields a snapshot with the probability
absent and the other fields intact. -/
theorem get_weather_failure_modes_witness :
    ((some (WeatherResp.mk
        (some (CurrentWeather.mk (some 21) (some 5) (some "2024-01-01T10:00")))
        [] []) =
      some (WeatherResp.mk
        (some (CurrentWeather.mk (some 21) (some 5) (some "2024-01-01T10:00")))
        [] [])) ∧
     (WeatherResp.mk
        (some (CurrentWeather.mk (some 21) (some 5) (some "2024-01-01T10:00")))
        [] []).current_weather =
       some (CurrentWeather.mk (some 21) (some 5) (some "2024-01-01T10:00")) ∧
     ((WeatherResp.mk
        (some (CurrentWeather.mk (some 21) (some 5) (some "2024-01-01T10:00")))
        [] []).hourly_time = [])) ∧
    get_weather (some (WeatherResp.mk
        (some (CurrentWeather.mk (some 21) (some 5) (some "2024-01-01T10:00")))
        [] [])) =
      some (WeatherOut.mk (some 21) (some 5) (some "2024-01-01T10:00") none) :=
  ⟨⟨rfl, rfl, rfl⟩,
    (get_weather_failure_modes _).2 _ _ rfl rfl (Or.inl rfl)⟩

lemma buildPlaces_names (lat lon : ℝ) : ∀ (elems : List Element) (seen : List String),
    (∀ p ∈ buildPlaces lat lon elems seen, p.name ∉ seen) ∧
    (buildPlaces lat lon elems seen).Pairwise (fun a b => a.name ≠ b.name) := by
  intro elems
  induction elems with
  | nil => intro seen; simp [buildPlaces]
  | cons el rest ih =>
    intro seen
    unfold buildPlaces
    cases hname : tagGet el.tags "name" with
    | none => exact ih seen
    | some name =>
      dsimp only
      by_cases hemp : name = ""
      · rw [if_pos hemp]; exact ih seen
      · rw [if_neg hemp]
        by_cases hseen : name ∈ seen
        · rw [if_pos hseen]; exact ih seen
        · rw [if_neg hseen]
          cases hco : elemCoords el with
          | none =>
            obtain ⟨h1, h2⟩ := ih (name :: seen)
            exact ⟨fun p hp => fun hmem =>
              h1 p hp (List.mem_cons_of_mem _ hmem), h2⟩
          | some co =>
            obtain ⟨plat, plon⟩ := co
            obtain ⟨h1, h2⟩ := ih (name :: seen)
            constructor
            · intro p hp
              rcases List.mem_cons.mp hp with rfl | hp'
              · exact hseen
              · exact fun hmem => h1 p hp' (List.mem_cons_of_mem _ hmem)
            · refine List.Pairwise.cons ?_ h2
              intro q hq
              have := h1 q hq
              simp only [List.mem_cons, not_or] at this
              exact fun heq => this.1 heq.symm

lemma find_places_decomp (lat lon : ℝ) (radius_m : ℕ) (elems : List Element)
    (limit : ℕ) :
    find_places lat lon radius_m (some elems) limit =
      (((buildPlaces lat lon elems []).filter
          (fun p => p.distance_km.isSome)).mergeSort distLe ++
        (buildPlaces lat lon elems []).filter
          (fun p => !p.distance_km.isSome)).take limit := by
  unfold find_places
  dsimp only
  by_cases hlt :
      (((buildPlaces lat lon elems []).filter
        (fun p => p.distance_km.isSome)).mergeSort distLe).length < limit
  · rw [if_pos hlt]
    congr 1
    congr 1
    apply List.filter_congr
    intro p hp
    by_cases hs : p.distance_km.isSome
    · have hmem : p ∈ ((buildPlaces lat lon elems []).filter
          (fun p => p.distance_km.isSome)).mergeSort distLe := by
        rw [List.mem_mergeSort, List.mem_filter]
        exact ⟨hp, hs⟩
      simp [hmem, hs]
    · have hmem : p ∉ ((buildPlaces lat lon elems []).filter
          (fun p => p.distance_km.isSome)).mergeSort distLe := by
        rw [List.mem_mergeSort, List.mem_filter]
        intro hc
        exact hs hc.2
      simp [hmem, hs]
  · rw [if_neg hlt]
    exact (List.take_eq_left_iff.mpr (Or.inr (by omega))).symm

lemma find_places_perm (lat lon : ℝ) (radius_m : ℕ) (elems : List Element) :
    (((buildPlaces lat lon elems []).filter
        (fun p => p.distance_km.isSome)).mergeSort distLe ++
      (buildPlaces lat lon elems []).filter
        (fun p => !p.distance_km.isSome)).Perm
      (buildPlaces lat lon elems []) := by
  refine List.Perm.trans
    (List.Perm.append_right _ (List.mergeSort_perm _ _)) ?_
  exact List.filter_append_perm _ _

/-- C3: for every provider response and positive limit, the POI finder
returns no two entries with the same name, and at most `limit` entries. -/
theorem find_places_nodup_bounded (lat lon : ℝ) (radius_m : ℕ)
    (resp : Option (List Element)) (limit : ℕ) (hlim : 0 < limit) :
    (find_places lat lon radius_m resp limit).Pairwise
      (fun a b => a.name ≠ b.name) ∧
    (find_places lat lon radius_m resp limit).length ≤ limit := by
  cases resp with
  | none => simp [find_places]
  | some elems =>
    constructor
    · rw [find_places_decomp]
      apply List.Pairwise.sublist (List.take_sublist _ _)
      exact List.Pairwise.perm (buildPlaces_names lat lon elems []).2
        (find_places_perm lat lon radius_m elems).symm
        (fun h => Ne.symm h)
    · rw [find_places_decomp]
      simp [List.length_take]

/-- Witness for C3 at a failed provider call and limit 1. -/
theorem find_places_nodup_bounded_witness :
    0 < 1 ∧
    ((find_places 0 0 20000 none 1).Pairwise (fun a b => a.name ≠ b.name) ∧
     (find_places 0 0 20000 none 1).length ≤ 1) :=
  ⟨Nat.one_pos, find_places_nodup_bounded 0 0 20000 none 1 Nat.one_pos⟩

/-- C4: for every provider response, the POI finder's result is the
distance-bearing entries sorted in ascending order of distance, followed by
the distance-less entries in provider order (`filter` keeps the build
order, which is the provider order), with truncation to the limit applied
after this ordering. -/
theorem find_places_ordering (lat lon : ℝ) (radius_m : ℕ)
    (resp : Option (List Element)) (limit : ℕ) :
    ∃ withDist : List Place,
      withDist.Perm ((buildPlaces lat lon (resp.getD []) []).filter
        (fun p => p.distance_km.isSome)) ∧
      withDist.Pairwise (fun a b => ∃ da db, a.distance_km = some da ∧
        b.distance_km = some db ∧ da ≤ db) ∧
      find_places lat lon radius_m resp limit =
        (withDist ++ (buildPlaces lat lon (resp.getD []) []).filter
          (fun p => !p.distance_km.isSome)).take limit := by
  have htrans : ∀ (a b c : Place), distLe a b → distLe b c → distLe a c := by
    intro a b c hab hbc
    simp only [distLe, decide_eq_true_eq] at *
    exact le_trans hab hbc
  have htotal : ∀ (a b : Place), distLe a b || distLe b a := by
    intro a b
    simp only [distLe, Bool.or_eq_true, decide_eq_true_eq]
    exact le_total _ _
  cases resp with
  | none =>
    refine ⟨[], ?_, List.Pairwise.nil, ?_⟩
    · simp [buildPlaces]
    · simp [find_places, buildPlaces]
  | some elems =>
    refine ⟨((buildPlaces lat lon elems []).filter
        (fun p => p.distance_km.isSome)).mergeSort distLe,
      List.mergeSort_perm _ _, ?_, ?_⟩
    · have hsorted := List.sorted_mergeSort htrans htotal
        ((buildPlaces lat lon elems []).filter (fun p => p.distance_km.isSome))
      apply List.Pairwise.imp_of_mem ?_ hsorted
      intro a b ha hb hle
      have ha2 : a.distance_km.isSome = true := by
        have h := List.mem_filter.mp (List.mem_mergeSort.mp ha)
        exact h.2
      have hb2 : b.distance_km.isSome = true := by
        have h := List.mem_filter.mp (List.mem_mergeSort.mp hb)
        exact h.2
      obtain ⟨da, hda⟩ := Option.isSome_iff_exists.mp ha2
      obtain ⟨db, hdb⟩ := Option.isSome_iff_exists.mp hb2
      refine ⟨da, db, hda, hdb, ?_⟩
      simp only [distLe, decide_eq_true_eq, hda, hdb, Option.getD_some] at hle
      exact hle
    · exact find_places_decomp lat lon radius_m elems limit

/-- C9 fails on the code: a node feature at latitude exactly 0 has its
position fully present, yet `find_places` leaves `distance_km` absent,
because `haversine(...) if plat and plon else None` treats the float `0.0`
as falsy. The claimed invariant "distance present whenever the position is
present" therefore does not hold; the spec's step 4 is the evident intent
and the truthiness test is the slip. -/
theorem find_places_zero_coordinate_no_distance :
    find_places 10 50 20000
      (some [{ etype := "node",
               tags := [("name", "Equator Museum"), ("tourism", "museum")],
               lat := some 0, lon := some 50,
               center_lat := none, center_lon := none }]) 5 =
      [{ name := "Equator Museum",
         tags := [("name", "Equator Museum"), ("tourism", "museum")],
         ptype := "tourism=museum", lat := some 0, lon := some 50,
         distance_km := none }] := by
  have hdist : distOpt 10 50 (some 0, some 50) = none := by
    unfold distOpt
    exact if_pos (Or.inl rfl)
  have hb : buildPlaces 10 50
      [{ etype := "node",
         tags := [("name", "Equator Museum"), ("tourism", "museum")],
         lat := some 0, lon := some 50,
         center_lat := none, center_lon := none }] [] =
      [{ name := "Equator Museum",
         tags := [("name", "Equator Museum"), ("tourism", "museum")],
         ptype := "tourism=museum", lat := some 0, lon := some 50,
         distance_km := none }] := by
    simp [buildPlaces, tagGet, elemCoords, primaryTag, hdist]
  unfold find_places
  dsimp only
  rw [hb]
  simp

/-- C1: when geocoding resolves to `None`, the plan is a failure whose
message is exactly the template with the query embedded verbatim, and the
result is the same whatever the weather or POI providers would have
answered — in this pure embedding, that is the rendering of "neither child
is invoked". -/
theorem plan_for_place_notfound (place_query : String)
    (gresp : Option (List Candidate))
    (hg : geocode_place place_query gresp = none) :
    ∀ (wresp : Option WeatherResp) (presp : Option (List Element)),
      plan_for_place place_query gresp wresp presp =
        .failure ("I don't know this place exists: '" ++ place_query ++
          "'. Please check spelling or try a different place.") ∧
      (plan_for_place place_query gresp wresp presp).ok = false := by
  intro wresp presp
  unfold plan_for_place
  rw [hg]
  exact ⟨rfl, rfl⟩

/-- Witness for C1 on the spec's concrete scenario: an unresolvable query
with a failed geocoding call; the message embeds the query verbatim. -/
theorem plan_for_place_notfound_witness :
    geocode_place "Nowhere12345xyz" none = none ∧
    plan_for_place "Nowhere12345xyz" none none none =
      .failure ("I don't know this place exists: '" ++ "Nowhere12345xyz" ++
        "'. Please check spelling or try a different place.") ∧
    (plan_for_place "Nowhere12345xyz" none none none).ok = false :=
  ⟨rfl, (plan_for_place_notfound "Nowhere12345xyz" none rfl none none).1,
    (plan_for_place_notfound "Nowhere12345xyz" none rfl none none).2⟩

/-- C2: whenever geocoding succeeds the plan is a success whose weather
field is exactly the weather lookup's outcome (absent when it fails) and
whose POI field is exactly the POI finder's outcome (empty when it fails);
each soft dependency's field is independent of the other's response and of
the place field. -/
theorem plan_for_place_success (place_query : String)
    (gresp : Option (List Candidate)) (g : GeocodeResult)
    (hg : geocode_place place_query gresp = some g) :
    ∀ (wresp : Option WeatherResp) (presp : Option (List Element)),
      plan_for_place place_query gresp wresp presp =
        .success { query := place_query, display_name := g.display_name,
                   lat := g.lat, lon := g.lon }
          (get_weather wresp) (find_places g.lat g.lon 20000 presp 5) ∧
      (plan_for_place place_query gresp wresp presp).ok = true ∧
      (wresp = none → get_weather wresp = none) ∧
      (presp = none → find_places g.lat g.lon 20000 presp 5 = []) := by
  intro wresp presp
  unfold plan_for_place
  rw [hg]
  refine ⟨rfl, rfl, ?_, ?_⟩
  · rintro rfl; rfl
  · rintro rfl; rfl

/-- Witness for C2: a resolved query with both soft providers failing still
yields a success with absent weather and no POIs. -/
theorem plan_for_place_success_witness :
    geocode_place "Paris" (some [Candidate.mk (some 1) (some 2)
      (some "Paris, France")]) =
      some (GeocodeResult.mk 1 2 "Paris, France") ∧
    plan_for_place "Paris" (some [Candidate.mk (some 1) (some 2)
        (some "Paris, France")]) none none =
      .success (PlaceInfo.mk "Paris" "Paris, France" 1 2) none [] ∧
    (plan_for_place "Paris" (some [Candidate.mk (some 1) (some 2)
        (some "Paris, France")]) none none).ok = true :=
  ⟨rfl,
    (plan_for_place_success "Paris"
      (some [Candidate.mk (some 1) (some 2) (some "Paris, France")])
      (GeocodeResult.mk 1 2 "Paris, France") rfl none none).1,
    (plan_for_place_success "Paris"
      (some [Candidate.mk (some 1) (some 2) (some "Paris, France")])
      (GeocodeResult.mk 1 2 "Paris, France") rfl none none).2.1⟩
